import Mathlib

/-!
Verification of the zod-to-mongoose schema-translation engine.

The development shallowly embeds the translator in `src/src/index.ts`
(`parseField`, `parseObject`, `extractValidationFromChecks` and the
`parseString`/`parseNumber`/... emitters) together with the extension module
(`extendZod`, `enhanceZodInstance` and the refine override it installs).

JavaScript values are modelled explicitly: `undefined`/absent properties are
`Option.none`, the heterogeneous default slot (`T | (() => T)` or, on the
effect path, a raw `_def` object) is the inductive `MDefault`, and validator
functions are identified by an opaque `Nat` id (the translator never calls
them, it only stores and moves them).
-/

namespace ZodMongoose

/-- A JavaScript value as far as the translator observes it (default values,
the `null` produced for nullable fields, enum literals). -/
inductive Value where
  | null
  | bool (b : Bool)
  | num (n : Int)
  | str (s : String)
deriving DecidableEq, Repr

/-- `zm.EffectValidator`: the custom-validator record `{validator, message}`.
The validator function is identified by an opaque id; `message` may be
`undefined` (the enhanced refine stores whatever the caller supplied). -/
structure EffectValidator where
  validator : Nat
  message : Option String
deriving DecidableEq, Repr

/-- The `def` object of one entry of a zod-v4 `checks` array, with the fields
the translator reads: `type`, `fn` (a function, present or not), `error`
(modelled as `none` when not a function, `some m` for a function whose
observable message extraction yields `m`), and the `__zm_validation` metadata
written by the enhanced refine. -/
structure CheckDef where
  type : String
  fn : Option Nat
  error : Option (Option String)
  zm_validation : Option EffectValidator
deriving DecidableEq, Repr

/-- One entry of a `checks` array: `cdef` models `check.def` (`def` is a Lean
keyword), and `zm_validation` the check-level `__zm_validation` property. -/
structure Check where
  cdef : CheckDef
  zm_validation : Option EffectValidator
deriving DecidableEq, Repr

/-- A zod schema node as dispatched on by `parseField` via the `zmAssert`
family: each `zmAssert` predicate tests a distinct `__zm_type` tag (with the
instance-level `"ObjectId"`/`"UUID"` tags of `zId`/`zUUID` shadowing the
prototype tag), so the node kinds form a disjoint sum.  Extension attributes
(`__zm_unique`, `__zm_sparse`, `__zm_ref`, `__zm_refPath`) are carried as
`Option`s on the kinds that can receive them; `unknownKind` stands for any
node whose tag matches no assertion, carrying its constructor name for the
error message. -/
inductive ZodNode where
  | string (minLength maxLength : Option Int) (checks : List Check)
      (zmUnique zmSparse : Option Bool)
  | number (minValue maxValue : Option Int) (checks : List Check)
      (zmUnique zmSparse : Option Bool)
  | date (checks : List Check) (zmUnique zmSparse : Option Bool)
  | boolean
  | enum (options : List String)
  | obj (shape : List (String × ZodNode))
  | array (element : ZodNode)
  | mapOrRecord (valueType : ZodNode)
  | union (options : List ZodNode)
  | defaultW (innerType : ZodNode) (defaultValue : Value)
  | optional (innerType : ZodNode)
  | nullable (innerType : ZodNode)
  | anyW
  | objectId (zmRef zmRefPath : Option String) (zmUnique zmSparse : Option Bool)
  | uuid (zmRef zmRefPath : Option String) (zmUnique zmSparse : Option Bool)
  | pipe (pin pout : ZodNode)
  | effect (defType : String) (pin schema : Option ZodNode)
  | unknownKind (ctorName : String)
deriving Repr

/-- The JavaScript class name of a node, as interpolated into the
`Unsupported field type: ${...constructor}` error message. -/
def constructorName : ZodNode → String
  | .string .. => "ZodString"
  | .number .. => "ZodNumber"
  | .date .. => "ZodDate"
  | .boolean => "ZodBoolean"
  | .enum _ => "ZodEnum"
  | .obj _ => "ZodObject"
  | .array _ => "ZodArray"
  | .mapOrRecord _ => "ZodMap"
  | .union _ => "ZodUnion"
  | .defaultW .. => "ZodDefault"
  | .optional _ => "ZodOptional"
  | .nullable _ => "ZodNullable"
  | .anyW => "ZodAny"
  | .objectId .. => "ZodUnion"
  | .uuid .. => "ZodUnion"
  | .pipe .. => "ZodPipe"
  | .effect .. => "ZodTransform"
  | .unknownKind name => name

/-- The instance-level `__zm_unique` attribute of a node (`none` when the
property is absent, as on kinds that never receive it). -/
def zmUniqueAttr : ZodNode → Option Bool
  | .string _ _ _ u _ => u
  | .number _ _ _ u _ => u
  | .date _ u _ => u
  | .objectId _ _ u _ => u
  | .uuid _ _ u _ => u
  | _ => none

/-- The instance-level `__zm_sparse` attribute of a node. -/
def zmSparseAttr : ZodNode → Option Bool
  | .string _ _ _ _ s => s
  | .number _ _ _ _ s => s
  | .date _ _ s => s
  | .objectId _ _ _ s => s
  | .uuid _ _ _ s => s
  | _ => none

/-- The zod-v4 `type` tag read by the pipe branch (`inputType.type`,
`outputType.type`) to separate preprocess from transform pipes; a transform
node reports `"transform"`, every other kind its own tag. -/
def nodeJsType : ZodNode → String
  | .string .. => "string"
  | .number .. => "number"
  | .date .. => "date"
  | .boolean => "boolean"
  | .enum _ => "enum"
  | .obj _ => "object"
  | .array _ => "array"
  | .mapOrRecord _ => "map"
  | .union _ => "union"
  | .defaultW .. => "default"
  | .optional _ => "optional"
  | .nullable _ => "nullable"
  | .anyW => "any"
  | .objectId .. => "union"
  | .uuid .. => "union"
  | .pipe .. => "pipe"
  | .effect .. => "transform"
  | .unknownKind _ => "unknown"

/-- What flows through the `def` parameter of `parseField` (`zm.mDefault`):
either a thunk `() => v` (installed by the Default and Nullable branches), or
— on the effect path only — the raw `_def` object of an effect node, passed
where a default provider is expected. -/
inductive MDefault where
  | thunk (v : Value)
  | rawDef (defType : String) (pin schema : Option ZodNode)
deriving Repr

/-- A mongoose field descriptor (`zm.mField`), one variant per emitter of the
source, each carrying exactly the properties that emitter writes.  The
`uniqueProp`/`sparseProp` slots on variants whose emitter writes no
`unique`/`sparse` key model the properties the effect branch may inject onto
an already-built descriptor object. -/
inductive MField where
  | mString (deflt : Option MDefault) (required : Bool)
      (minLength maxLength : Option Int) (unique sparse : Bool)
      (validate : Option EffectValidator)
  | mEnum (deflt : Option MDefault) (enumVals : List String) (required : Bool)
      (unique sparse : Bool)
  | mNumber (deflt : Option MDefault) (min max : Option Int)
      (required unique sparse : Bool) (validate : Option EffectValidator)
  | mBoolean (deflt : Option MDefault) (required : Bool)
      (uniqueProp sparseProp : Option Bool)
  | mDate (deflt : Option MDefault) (required unique sparse : Bool)
      (validate : Option EffectValidator)
  | mObjectId (required unique sparse : Bool) (ref refPath : Option String)
  | mUUID (required unique sparse : Bool) (ref refPath : Option String)
  | mArray (elem : MField) (deflt : Option MDefault) (required : Bool)
      (uniqueProp sparseProp : Option Bool)
  | mMap (ofField : MField) (deflt : Option MDefault) (required : Bool)
      (uniqueProp sparseProp : Option Bool)
  | mMixed (deflt : Option MDefault) (required : Bool)
      (uniqueProp sparseProp : Option Bool)
  | mSchema (fields : List (String × MField)) (uniqueProp sparseProp : Option Bool)
deriving Repr

/-- The exceptions thrown by the translation (`parseObject`, `parseArray`,
`parseMap`), plus `stackOverflow` for the one path of the effect branch that
re-enters `parseField` on the very same node with the same effective
arguments and therefore exhausts the JS call stack. -/
inductive TransError where
  | unsupportedFieldType (ctorName : String)
  | unsupportedArrayType
  | unsupportedMapValueType
  | stackOverflow
deriving DecidableEq, Repr

/-- Truthiness filter for `if (ref) output.ref = ref`: an absent or empty
string is not copied onto the descriptor. -/
def truthyStr : Option String → Option String
  | some s => if s = "" then none else some s
  | none => none

/-- `message || 'Validation failed'`: the empty string is falsy in JS, so it
also falls back to the default message. -/
def msgOrDefault : Option String → String
  | some s => if s = "" then "Validation failed" else s
  | none => "Validation failed"

/-- The message a custom check's `error` function yields, as observed by
`extractValidationFromChecks` (string result, or object with a string
`message`; anything else leaves the message undefined). -/
def errorMessageOf : Option (Option String) → Option String
  | some (some s) => some s
  | _ => none

/-- `extractValidationFromChecks` (src/src/index.ts): walks the checks array
in order and returns on the first check that carries `def.__zm_validation`,
a check-level `__zm_validation`, or is a custom check with an `fn`. -/
def extractValidationFromChecks : List Check → Option EffectValidator
  | [] => none
  | check :: rest =>
    match check.cdef.zm_validation with
    | some v => some v
    | none =>
      match check.zm_validation with
      | some v => some v
      | none =>
        if check.cdef.type = "custom" then
          match check.cdef.fn with
          | some f =>
              some { validator := f
                     message := some (msgOrDefault (errorMessageOf check.cdef.error)) }
          | none => extractValidationFromChecks rest
        else extractValidationFromChecks rest

/-- The per-check matching logic of `extractValidationFromChecks`, factored
out: what a single check contributes if the loop stops at it. -/
def checkValidation (check : Check) : Option EffectValidator :=
  match check.cdef.zm_validation with
  | some v => some v
  | none =>
    match check.zm_validation with
    | some v => some v
    | none =>
      if check.cdef.type = "custom" then
        match check.cdef.fn with
        | some f =>
            some { validator := f
                   message := some (msgOrDefault (errorMessageOf check.cdef.error)) }
        | none => none
      else none

/-- `parseNumber`: reads `field.minValue`/`field.maxValue` (undefined on a
non-number node) and assembles the number descriptor. -/
def parseNumber (field : ZodNode) (required : Bool) (deflt : Option MDefault)
    (unique : Bool) (validate : Option EffectValidator) (sparse : Bool) : MField :=
  match field with
  | .number mn mx _ _ _ => .mNumber deflt mn mx required unique sparse validate
  | _ => .mNumber deflt none none required unique sparse validate

/-- `parseString`: reads `field.minLength`/`field.maxLength` and assembles
the string descriptor. -/
def parseString (field : ZodNode) (required : Bool) (deflt : Option MDefault)
    (unique : Bool) (validate : Option EffectValidator) (sparse : Bool) : MField :=
  match field with
  | .string mn mx _ _ _ => .mString deflt required mn mx unique sparse validate
  | _ => .mString deflt required none none unique sparse validate

/-- `parseEnum`: a string descriptor restricted to the enumerated values,
never unique or sparse and never carrying a custom validator. -/
def parseEnum (values : List String) (required : Bool) (deflt : Option MDefault) : MField :=
  .mEnum deflt values required false false

/-- `parseBoolean`. -/
def parseBoolean (required : Bool) (deflt : Option MDefault) : MField :=
  .mBoolean deflt required none none

/-- `parseDate`. -/
def parseDate (required : Bool) (deflt : Option MDefault)
    (validate : Option EffectValidator) (unique sparse : Bool) : MField :=
  .mDate deflt required unique sparse validate

/-- `parseObjectId`: `ref`/`refPath` are copied only when truthy. -/
def parseObjectId (required : Bool) (ref : Option String) (unique : Bool)
    (refPath : Option String) (sparse : Bool) : MField :=
  .mObjectId required unique sparse (truthyStr ref) (truthyStr refPath)

/-- `parseUUID`: `ref`/`refPath` are copied only when truthy. -/
def parseUUID (required : Bool) (ref : Option String) (unique : Bool)
    (refPath : Option String) (sparse : Bool) : MField :=
  .mUUID required unique sparse (truthyStr ref) (truthyStr refPath)

/-- `parseMixed`. -/
def parseMixed (required : Bool) (deflt : Option MDefault) : MField :=
  .mMixed deflt required none none

/-- The property writes `parsed.unique = unique; parsed.sparse = sparse`
performed by the effect branch, guarded by `'type' in parsed`: descriptors
built by an emitter all carry a `type` key; a nested schema object does only
if one of its field names is literally `"type"`. -/
def setUniqueSparse (unique sparse : Bool) : MField → MField
  | .mString d r mn mx _ _ v => .mString d r mn mx unique sparse v
  | .mEnum d vals r _ _ => .mEnum d vals r unique sparse
  | .mNumber d mn mx r _ _ v => .mNumber d mn mx r unique sparse v
  | .mBoolean d r _ _ => .mBoolean d r (some unique) (some sparse)
  | .mDate d r _ _ v => .mDate d r unique sparse v
  | .mObjectId r _ _ ref rp => .mObjectId r unique sparse ref rp
  | .mUUID r _ _ ref rp => .mUUID r unique sparse ref rp
  | .mArray e d r _ _ => .mArray e d r (some unique) (some sparse)
  | .mMap o d r _ _ => .mMap o d r (some unique) (some sparse)
  | .mMixed d r _ _ => .mMixed d r (some unique) (some sparse)
  | .mSchema fs up sp =>
      if fs.any (fun p => p.1 = "type") then .mSchema fs (some unique) (some sparse)
      else .mSchema fs up sp

/-- The element-level constraint extraction of the array branch:
`element._def.checks` exists exactly on the check-carrying primitive kinds. -/
def elementChecksValidation : ZodNode → Option EffectValidator
  | .string _ _ checks _ _ => extractValidationFromChecks checks
  | .number _ _ checks _ _ => extractValidationFromChecks checks
  | .date checks _ _ => extractValidationFromChecks checks
  | _ => none

/-- `enhanceZodInstance` only installs the overridden `refine` method and an
idempotence marker on the instance; it reads or writes nothing the
translation functions consume, so on the translation-relevant state it is the
identity.  The behaviour of the installed refine override is modelled
separately by `enhancedRefine`. -/
@[reducible]
def enhanceZodInstance (inst : ZodNode) : ZodNode := inst

mutual

/-- `parseObject` (src/src/index.ts): translates each shape entry in
declaration order, recursing into object-kind members and aborting with
`Unsupported field type` on the first member `parseField` cannot translate.
Each entry is translated with the default context (`required=true`, no
default provider, no refinement); the per-entry `enhanceZodInstance` call is
the identity here (see its doc). -/
def parseObject : List (String × ZodNode) → Except TransError (List (String × MField))
  | [] => .ok []
  | (key, field) :: rest => do
    -- `const enhancedField = enhanceZodInstance(field)` is the identity on
    -- the translation state, so the entry is dispatched on `field` directly
    let entry ←
      match field with
      | .obj shape => do
          let m ← parseObject shape
          pure (MField.mSchema m none none)
      | f => do
          match ← parseField f true none none with
          | some v => pure v
          | none => throw (.unsupportedFieldType (constructorName f))
    let tail ← parseObject rest
    pure ((key, entry) :: tail)
termination_by l => 2 * sizeOf l
decreasing_by all_goals (simp_wf <;> omega)

/-- `parseField` (src/src/index.ts): dispatches on the classified kind in the
source's order and threads the `required`/`deflt`/`refinement` context.
Returns `.ok none` where the source returns `null`.  The source's leading
`field = enhanceZodInstance(field)` is the identity on the translation state
and is dropped (see `enhanceZodInstance`). -/
def parseField (field : ZodNode) (required : Bool) (deflt : Option MDefault)
    (refinement : Option EffectValidator) : Except TransError (Option MField) :=
  match field with
  | .objectId ref refPath unique sparse =>
      .ok (some (parseObjectId required ref (unique.getD false) refPath (sparse.getD false)))
  | .uuid ref refPath unique _sparse =>
      -- the source reads `const sparse = field.__zm_unique` here,
      -- so the sparse flag is taken from the uniqueness attribute
      .ok (some (parseUUID required ref (unique.getD false) refPath (unique.getD false)))
  | .obj shape => do
      let m ← parseObject shape
      pure (some (.mSchema m none none))
  | .number mn mx checks unique sparse =>
      let isUnique := unique.getD false
      let isSparse := sparse.getD false
      let validation := extractValidationFromChecks checks
      .ok (some (parseNumber (.number mn mx checks unique sparse) required deflt
        isUnique (validation <|> refinement) isSparse))
  | .string mn mx checks unique sparse =>
      let isUnique := unique.getD false
      let isSparse := sparse.getD false
      let validation := extractValidationFromChecks checks
      .ok (some (parseString (.string mn mx checks unique sparse) required deflt
        isUnique (validation <|> refinement) isSparse))
  | .enum options =>
      .ok (some (parseEnum options required deflt))
  | .boolean =>
      .ok (some (parseBoolean required deflt))
  | .date checks unique sparse =>
      let isUnique := unique.getD false
      let isSparse := sparse.getD false
      let validation := extractValidationFromChecks checks
      .ok (some (parseDate required deflt (validation <|> refinement) isUnique isSparse))
  | .array element => do
      let elementValidation := elementChecksValidation element
      let a ← parseArray required element deflt elementValidation
      pure (some a)
  | .defaultW innerType defaultValue =>
      -- the refinement argument is not forwarded by the source call
      parseField innerType required (some (.thunk defaultValue)) none
  | .optional innerType =>
      parseField innerType false none none
  | .nullable innerType =>
      parseField innerType false (some (deflt.getD (.thunk .null))) none
  | .union options =>
      -- `parseField(field._def.options[0])`: only the first option, with the
      -- default context; an empty option list yields `parseField(undefined)`
      -- which matches no assertion and returns null
      match options with
      | [] => .ok none
      | o :: _ => parseField o true none none
  | .anyW =>
      .ok (some (parseMixed required deflt))
  | .mapOrRecord valueType => do
      let m ← parseMap required valueType deflt
      pure (some m)
  | .pipe pin pout =>
      let isPreprocess := nodeJsType pin = "transform" ∧ nodeJsType pout ≠ "transform"
      if isPreprocess then parseField pout required deflt refinement
      else parseField pin required deflt refinement
  | .effect defType pin schema =>
      -- `originalField = def.in || def.schema`, matched on explicitly;
      -- `def` here is the node's `_def`, shadowing the default parameter,
      -- and is what gets passed as the default provider below
      match pin, schema with
      | some f, sch =>
          let unique := (zmUniqueAttr f).getD false
          let sparse := (zmSparseAttr f).getD false
          if defType = "string" ∨ defType = "number" ∨ defType = "date" then do
            let parsed ← parseField f required (some (.rawDef defType (some f) sch)) refinement
            pure (parsed.map (setUniqueSparse unique sparse))
          else if defType = "pipe" ∨ defType = "transform" then do
            let parsed ← parseField f required (some (.rawDef defType (some f) sch)) refinement
            pure (parsed.map (setUniqueSparse unique sparse))
          else .ok none
      | none, some f =>
          let unique := (zmUniqueAttr f).getD false
          let sparse := (zmSparseAttr f).getD false
          if defType = "string" ∨ defType = "number" ∨ defType = "date" then do
            let parsed ← parseField f required (some (.rawDef defType none (some f))) refinement
            pure (parsed.map (setUniqueSparse unique sparse))
          else if defType = "pipe" ∨ defType = "transform" then do
            let parsed ← parseField f required (some (.rawDef defType none (some f))) refinement
            pure (parsed.map (setUniqueSparse unique sparse))
          else .ok none
      | none, none =>
          if defType = "string" ∨ defType = "number" ∨ defType = "date" then
            -- `parseField(originalField || field, ...)` re-enters this very
            -- branch with the same effective arguments forever: the JS call
            -- stack overflows
            .error .stackOverflow
          else
            -- `parseField(undefined, ...)` matches no assertion and yields
            -- null; the `'type' in parsed` guard then skips the mutation
            .ok none
  | .unknownKind _ => .ok none
termination_by 2 * sizeOf field
decreasing_by all_goals (simp_wf <;> omega)

/-- `parseArray`: translates the element as a required field and wraps it;
a null element translation throws `Unsupported array type`. -/
def parseArray (required : Bool) (element : ZodNode) (deflt : Option MDefault)
    (elementValidation : Option EffectValidator) : Except TransError MField := do
  match ← parseField element true none elementValidation with
  | some innerType => pure (.mArray innerType deflt required none none)
  | none => throw .unsupportedArrayType
termination_by 2 * sizeOf element + 1
decreasing_by all_goals simp_wf

/-- `parseMap`: translates the value type with the default context and wraps
it; a null value translation throws `Unsupported map value type`. -/
def parseMap (required : Bool) (valueType : ZodNode) (deflt : Option MDefault) :
    Except TransError MField := do
  match ← parseField valueType true none none with
  | some pointer => pure (.mMap pointer deflt required none none)
  | none => throw .unsupportedMapValueType
termination_by 2 * sizeOf valueType + 1
decreasing_by all_goals simp_wf

end

/-- `zodSchemaRaw`: the raw entry point, directly `parseObject` on the root
object's shape. -/
def zodSchemaRaw (shape : List (String × ZodNode)) :
    Except TransError (List (String × MField)) :=
  parseObject shape

end ZodMongoose

namespace ZodMongoose

/-- The mutable state of one zod class prototype, as far as `extendZod`
touches it: whether the chainable `unique`/`sparse` methods have been
attached, and the `__zm_type` tag assigned to it. -/
structure ProtoState where
  hasUniqueMethod : Bool := false
  hasSparseMethod : Bool := false
  zmType : Option String := none
deriving DecidableEq, Repr

/-- The zod library object handed to `extendZod`: the module-level
`zod_extended` guard together with the prototypes of the classes the
registration mutates. -/
structure ZodLib where
  zod_extended : Bool
  zodString : ProtoState
  zodNumber : ProtoState
  zodDate : ProtoState
  zodObject : ProtoState
  zodArray : ProtoState
  zodBoolean : ProtoState
  zodEnum : ProtoState
  zodDefault : ProtoState
  zodOptional : ProtoState
  zodNullable : ProtoState
  zodUnion : ProtoState
  zodAny : ProtoState
  zodMap : ProtoState
  zodRecord : ProtoState
  zodTransform : ProtoState
  zodPipe : ProtoState
deriving DecidableEq, Repr

/-- Attach the chainable `unique`/`sparse` methods to a prototype
(the `UNIQUE_SUPPORT_LIST` loop of `extendZod`). -/
def attachUniqueSparse (p : ProtoState) : ProtoState :=
  { p with hasUniqueMethod := true, hasSparseMethod := true }

/-- `extendZod` (src/unnamed/part_000): returns immediately when the
`zod_extended` guard is already set; otherwise sets the guard, attaches
`unique`/`sparse` to the String/Number/Date prototypes, and assigns the
`__zm_type` tag from `TypesMap` to every listed prototype. -/
def extendZod (z0 : ZodLib) : ZodLib :=
  if z0.zod_extended then z0
  else
    { zod_extended := true
      zodString := { attachUniqueSparse z0.zodString with zmType := some "String" }
      zodNumber := { attachUniqueSparse z0.zodNumber with zmType := some "Number" }
      zodDate := { attachUniqueSparse z0.zodDate with zmType := some "Date" }
      zodObject := { z0.zodObject with zmType := some "Object" }
      zodArray := { z0.zodArray with zmType := some "Array" }
      zodBoolean := { z0.zodBoolean with zmType := some "Boolean" }
      zodEnum := { z0.zodEnum with zmType := some "Enum" }
      zodDefault := { z0.zodDefault with zmType := some "Default" }
      zodOptional := { z0.zodOptional with zmType := some "Optional" }
      zodNullable := { z0.zodNullable with zmType := some "Nullable" }
      zodUnion := { z0.zodUnion with zmType := some "Union" }
      zodAny := { z0.zodAny with zmType := some "Any" }
      zodMap := { z0.zodMap with zmType := some "Map" }
      zodRecord := { z0.zodRecord with zmType := some "Record" }
      zodTransform := { z0.zodTransform with zmType := some "Effects" }
      zodPipe := { z0.zodPipe with zmType := some "Pipe" } }

/-- The `opts` argument of `refine`: absent, a plain message string, an
object carrying a `message` key, or an object without one. -/
inductive RefineOpts where
  | noOpts
  | strMsg (s : String)
  | objMsg (m : String)
  | objOther
deriving DecidableEq, Repr

/-- The message the enhanced refine computes from `opts` (a plain string, or
the `message` property of an options object). -/
def refineMessage : RefineOpts → Option String
  | .strMsg s => some s
  | .objMsg m => some m
  | .objOther => none
  | .noOpts => none

/-- The custom check the underlying library appends for a refinement:
`def.type = "custom"`, the predicate as `fn`, the caller's message reachable
through `def.error`, and no `__zm_validation` metadata yet. -/
def newCustomCheck (pred : Nat) (opts : RefineOpts) : Check :=
  { cdef := { type := "custom", fn := some pred,
              error := (refineMessage opts).map some, zm_validation := none }
    zm_validation := none }

/-- Modelled from the spec: the validation library's own `refine` derivation
(out of scope, consumed as a black box) derives a node of the same kind with
a custom check appended to its `checks`; instance-level extension attributes
do not carry over to the freshly built derived instance.  Modelled for the
check-carrying primitive kinds, the only kinds the extension's
`unique`/`sparse` methods apply to; other kinds are untouched here. -/
def baseRefine (n : ZodNode) (pred : Nat) (opts : RefineOpts) : ZodNode :=
  match n with
  | .string mn mx checks _ _ =>
      .string mn mx (checks ++ [newCustomCheck pred opts]) none none
  | .number mn mx checks _ _ =>
      .number mn mx (checks ++ [newCustomCheck pred opts]) none none
  | .date checks _ _ =>
      .date (checks ++ [newCustomCheck pred opts]) none none
  | other => other

/-- Write the `__zm_unique` attribute onto a node (no-op on kinds without the
attribute slot). -/
def withZmUnique (u : Option Bool) : ZodNode → ZodNode
  | .string mn mx checks _ s => .string mn mx checks u s
  | .number mn mx checks _ s => .number mn mx checks u s
  | .date checks _ s => .date checks u s
  | .objectId r rp _ s => .objectId r rp u s
  | .uuid r rp _ s => .uuid r rp u s
  | other => other

/-- Write the `__zm_sparse` attribute onto a node. -/
def withZmSparse (s : Option Bool) : ZodNode → ZodNode
  | .string mn mx checks u _ => .string mn mx checks u s
  | .number mn mx checks u _ => .number mn mx checks u s
  | .date checks u _ => .date checks u s
  | .objectId r rp u _ => .objectId r rp u s
  | .uuid r rp u _ => .uuid r rp u s
  | other => other

/-- `lastCheck = checks[checks.length - 1]; if (lastCheck.def.type ===
'custom') lastCheck.def.__zm_validation = v`: write the validation metadata
onto the last check when it is a custom check. -/
def setLastCheckValidation (v : EffectValidator) : List Check → List Check
  | [] => []
  | [c] =>
      if c.cdef.type = "custom" then
        [{ c with cdef := { c.cdef with zm_validation := some v } }]
      else [c]
  | c :: rest => c :: setLastCheckValidation v rest

/-- Update the `checks` of a check-carrying node in place. -/
def withChecks (f : List Check → List Check) : ZodNode → ZodNode
  | .string mn mx checks u s => .string mn mx (f checks) u s
  | .number mn mx checks u s => .number mn mx (f checks) u s
  | .date checks u s => .date (f checks) u s
  | other => other

/-- The `refine` override installed by `enhanceZodInstance`
(src/unnamed/part_000): lets the library derive the refined node, computes
the message from `opts`, copies `__zm_unique`/`__zm_sparse` forward when they
were defined on the original, and stores `{validator, message}` as
`__zm_validation` on the last (custom) check of the derived node.  The final
recursive `enhanceZodInstance(refined)` is the identity on this state. -/
def enhancedRefine (n : ZodNode) (pred : Nat) (opts : RefineOpts) : ZodNode :=
  let refined := baseRefine n pred opts
  let message := refineMessage opts
  let refined :=
    match zmUniqueAttr n with
    | some u => withZmUnique (some u) refined
    | none => refined
  let refined :=
    match zmSparseAttr n with
    | some s => withZmSparse (some s) refined
    | none => refined
  withChecks (setLastCheckValidation { validator := pred, message := message }) refined

/-- The `required` property of a descriptor (a nested schema object carries
none). -/
def fieldRequired : MField → Option Bool
  | .mString _ r _ _ _ _ _ => some r
  | .mEnum _ _ r _ _ => some r
  | .mNumber _ _ _ r _ _ _ => some r
  | .mBoolean _ r _ _ => some r
  | .mDate _ r _ _ _ => some r
  | .mObjectId r _ _ _ _ => some r
  | .mUUID r _ _ _ _ => some r
  | .mArray _ _ r _ _ => some r
  | .mMap _ _ r _ _ => some r
  | .mMixed _ r _ _ => some r
  | .mSchema _ _ _ => none

/-- The `default` property of a descriptor (reference and nested-schema
descriptors carry none). -/
def fieldDefault : MField → Option MDefault
  | .mString d _ _ _ _ _ _ => d
  | .mEnum d _ _ _ _ => d
  | .mNumber d _ _ _ _ _ _ => d
  | .mBoolean d _ _ _ => d
  | .mDate d _ _ _ _ => d
  | .mObjectId _ _ _ _ _ => none
  | .mUUID _ _ _ _ _ => none
  | .mArray _ d _ _ _ => d
  | .mMap _ d _ _ _ => d
  | .mMixed d _ _ _ => d
  | .mSchema _ _ _ => none

/-- The `validate` property of a descriptor. -/
def fieldValidate : MField → Option EffectValidator
  | .mString _ _ _ _ _ _ v => v
  | .mNumber _ _ _ _ _ _ v => v
  | .mDate _ _ _ _ v => v
  | _ => none

/-- The `required` flag of a successful, non-null translation result. -/
def resultRequired (r : Except TransError (Option MField)) : Option Bool :=
  match r with
  | .ok (some f) => fieldRequired f
  | _ => none

/-- The `default` slot of a successful, non-null translation result. -/
def resultDefault (r : Except TransError (Option MField)) : Option MDefault :=
  match r with
  | .ok (some f) => fieldDefault f
  | _ => none

/-- The `validate` slot of a successful, non-null translation result. -/
def resultValidate (r : Except TransError (Option MField)) : Option EffectValidator :=
  match r with
  | .ok (some f) => fieldValidate f
  | _ => none

/-- A check whose `def` slot carries an attached custom-validator record
with predicate id `n` and message `m`. -/
def checkWithValidation (n : Nat) (m : String) : Check :=
  { cdef := { type := "custom", fn := some n, error := none,
              zm_validation := some ⟨n, some m⟩ }
    zm_validation := none }

/-- A bare string node: no length constraints, no checks, no extension
attributes. -/
def strNode0 : ZodNode := .string none none [] none none

/-- A wrapper in a chain of modifier nodes around an inner node. -/
inductive Wrapper where
  | wOptional
  | wNullable
  | wDefault (v : Value)
deriving DecidableEq, Repr

/-- Wrap a node in a chain of modifier wrappers, outermost first. -/
def wrapChain : List Wrapper → ZodNode → ZodNode
  | [], x => x
  | .wOptional :: ws, x => .optional (wrapChain ws x)
  | .wNullable :: ws, x => .nullable (wrapChain ws x)
  | .wDefault v :: ws, x => .defaultW (wrapChain ws x) v

end ZodMongoose

namespace ZodMongoose

/-- The validator extraction is exactly a first-match scan, in forward order,
of the per-check matching logic. -/
theorem extractValidation_eq_findSome (checks : List Check) :
    extractValidationFromChecks checks = checks.findSome? checkValidation := by
  induction checks with
  | nil => simp [extractValidationFromChecks]
  | cons c rest ih =>
      simp only [extractValidationFromChecks, checkValidation, List.findSome?]
      cases hc : c.cdef.zm_validation with
      | some v => simp
      | none =>
          cases hcc : c.zm_validation with
          | some v => simp
          | none =>
              by_cases ht : c.cdef.type = "custom"
              · cases hf : c.cdef.fn with
                | some f => simp [ht, hf]
                | none => simp [ht, hf, ih]
              · simp [ht, ih]

/-- A chain of Optional/Nullable/Default wrappers entered with
`required=false` reaches the inner node with `required=false` (Optional and
Nullable force it, Default passes it through), the refinement slot cleared,
and some default context. -/
theorem wrapChain_required_false (ws : List Wrapper) :
    ∀ x d, ∃ d2, parseField (wrapChain ws x) false d none = parseField x false d2 none := by
  induction ws with
  | nil => intro x d; exact ⟨d, rfl⟩
  | cons w ws ih =>
      intro x d
      cases w with
      | wOptional =>
          obtain ⟨d2, h⟩ := ih x none
          exact ⟨d2, by simpa [wrapChain, parseField] using h⟩
      | wNullable =>
          obtain ⟨d2, h⟩ := ih x (some (d.getD (.thunk .null)))
          exact ⟨d2, by simpa [wrapChain, parseField] using h⟩
      | wDefault v =>
          obtain ⟨d2, h⟩ := ih x (some (.thunk v))
          exact ⟨d2, by simpa [wrapChain, parseField] using h⟩

/-- C1, counterexample: an Optional wrapped around a Union does not make the
field optional — the union branch restarts translation of its first option
with the default `required=true` context, so `Optional(Union([String]))`
translates to a descriptor with `required=true`, not `required=false`. -/
theorem optional_union_required_true :
    resultRequired (parseField (.optional (.union [strNode0])) true none none) = some true ∧
    resultRequired (parseField (.optional (.union [strNode0])) true none none) ≠ some false := by
  constructor
  · simp [parseField, strNode0, parseString, extractValidationFromChecks,
      resultRequired, fieldRequired]
  · simp [parseField, strNode0, parseString, extractValidationFromChecks,
      resultRequired, fieldRequired]

/-- C1, amended: for a wrapper chain drawn from Optional, Nullable and
Default that contains at least one Optional, the wrapped node itself is
reached with `required=false`, whatever the depth and order of the chain; a
Union wrapper sitting between the Optional and the node is the exception the
counterexample exhibits, since the union branch resets the context. -/
theorem optional_anywhere_required_false (ws : List Wrapper) (x : ZodNode) (r : Bool)
    (d : Option MDefault) (rf : Option EffectValidator) (h : Wrapper.wOptional ∈ ws) :
    ∃ d2, parseField (wrapChain ws x) r d rf = parseField x false d2 none := by
  induction ws generalizing r d rf with
  | nil => cases h
  | cons w ws ih =>
      cases w with
      | wOptional =>
          obtain ⟨d2, h2⟩ := wrapChain_required_false ws x none
          exact ⟨d2, by simpa [wrapChain, parseField] using h2⟩
      | wNullable =>
          obtain ⟨d2, h2⟩ := wrapChain_required_false ws x (some (d.getD (.thunk .null)))
          exact ⟨d2, by simpa [wrapChain, parseField] using h2⟩
      | wDefault v =>
          have hm : Wrapper.wOptional ∈ ws := by
            rcases List.mem_cons.mp h with h' | h'
            · cases h'
            · exact h'
          obtain ⟨d2, h2⟩ := ih r (some (.thunk v)) none hm
          exact ⟨d2, by simpa [wrapChain, parseField] using h2⟩

/-- C1, witness: a Default wrapper above an Optional, around a bare string
node, reaches the string with `required=false`. -/
theorem optional_anywhere_required_false_witness :
    ∃ d2, parseField (wrapChain [.wDefault (.num 1), .wOptional] strNode0) true none none =
      parseField strNode0 false d2 none :=
  optional_anywhere_required_false [.wDefault (.num 1), .wOptional] strNode0 true none none
    (by simp)

/-- C2, counterexample: `Default(Optional(String))` with default `"x"` loses
both guarantees of the claim — the optional branch clears the default
provider (the descriptor's default is absent, not `"x"`) and forces
`required=false` even though the inherited context was `required=true`. -/
theorem default_around_optional_loses_default :
    resultDefault (parseField (.defaultW (.optional strNode0) (.str "x")) true none none) = none ∧
    resultDefault (parseField (.defaultW (.optional strNode0) (.str "x")) true none none) ≠
      some (.thunk (.str "x")) ∧
    resultRequired (parseField (.defaultW (.optional strNode0) (.str "x")) true none none) =
      some false ∧
    resultRequired (parseField (.defaultW (.optional strNode0) (.str "x")) true none none) ≠
      some true := by
  refine ⟨?_, ?_, ?_, ?_⟩ <;>
    simp [parseField, strNode0, parseString, extractValidationFromChecks,
      resultDefault, fieldDefault, resultRequired, fieldRequired]

/-- C2, amended: the Default wrapper itself recurses into `X` with `required`
unchanged and a provider yielding the configured value `d`, so the claim
holds whenever `X` does not discard that context; but when `X` is an
Optional wrapper both the default and the inherited required flag are
discarded, and when `X` is a Nullable wrapper the default `d` survives while
`required` is forced to false. -/
theorem default_wrapper_context (x : ZodNode) (r : Bool) (d : Option MDefault)
    (rf : Option EffectValidator) (dv : Value) :
    parseField (.defaultW x dv) r d rf = parseField x r (some (.thunk dv)) none ∧
    parseField (.defaultW (.optional x) dv) r d rf = parseField x false none none ∧
    parseField (.defaultW (.nullable x) dv) r d rf =
      parseField x false (some (.thunk dv)) none := by
  refine ⟨?_, ?_, ?_⟩ <;> simp [parseField]

/-- C3, counterexample: a string node whose checks carry two attached
custom-validator records translates with the FIRST record, not the
most-recently-added one — the extraction loop walks the checks array from
the front and returns on the first match. -/
theorem extract_first_record_wins :
    resultValidate (parseField
        (.string none none [checkWithValidation 1 "first", checkWithValidation 2 "second"]
          none none) true none none) = some ⟨1, some "first"⟩ ∧
    (⟨1, some "first"⟩ : EffectValidator) ≠ ⟨2, some "second"⟩ := by
  constructor
  · simp [parseField, parseString, extractValidationFromChecks, checkWithValidation,
      resultValidate, fieldValidate]
  · decide

/-- C3, amended: the validator extraction used by the translation scans the
constraint-storage list in insertion order, from the first constraint
forward, and the first matching record wins. -/
theorem extract_forward_first_match (checks : List Check) :
    extractValidationFromChecks checks = checks.findSome? checkValidation :=
  extractValidation_eq_findSome checks

/-- C4: a UUID node whose sparseness attribute is set but whose uniqueness
attribute is absent translates to a descriptor with `sparse=false` — the
UUID branch copies `__zm_unique` into the sparse flag instead of
`__zm_sparse` (the ObjectId branch reads the right attribute). -/
theorem uuid_sparse_copied_from_unique :
    parseField (.uuid none none none (some true)) true none none =
      .ok (some (.mUUID true false false none none)) ∧
    zmSparseAttr (.uuid none none none (some true)) = some true := by
  constructor
  · simp [parseField, parseUUID, truthyStr]
  · rfl

/-- C5, counterexample: `Nullable(Optional(String))` with no active default
yields a descriptor with NO default at all, not one resolving to null — the
null provider the nullable branch supplies is cleared again by the inner
Optional. -/
theorem nullable_optional_default_dropped :
    resultDefault (parseField (.nullable (.optional strNode0)) true none none) = none ∧
    resultDefault (parseField (.nullable (.optional strNode0)) true none none) ≠
      some (.thunk .null) ∧
    resultRequired (parseField (.nullable (.optional strNode0)) true none none) = some false := by
  refine ⟨?_, ?_, ?_⟩ <;>
    simp [parseField, strNode0, parseString, extractValidationFromChecks,
      resultDefault, fieldDefault, resultRequired, fieldRequired]

/-- C5, amended: the Nullable wrapper recurses into `X` with `required=false`
and, as default provider, the active one when defined and otherwise a
provider yielding null; when `X` is a leaf string node the descriptor
consequently has `required=false` and a null-resolving default (under no
active provider).  The descriptor-level guarantee fails when `X` is itself a
wrapper that discards the context (Optional, Union), as the counterexample
shows. -/
theorem nullable_wrapper_context :
    (∀ x r d rf, parseField (.nullable x) r d rf =
      parseField x false (some (d.getD (.thunk .null))) none) ∧
    (∀ mn mx cks u sp r rf,
      parseField (.nullable (.string mn mx cks u sp)) r none rf =
        .ok (some (.mString (some (.thunk .null)) false mn mx (u.getD false) (sp.getD false)
          (extractValidationFromChecks cks)))) := by
  constructor
  · intro x r d rf; simp [parseField]
  · intro mn mx cks u sp r rf
    simp [parseField, parseString]

/-- C6: a root object whose member has no translation rule makes the raw
entry point fail with `Unsupported field type` naming the offending node's
constructor (no output is produced for any member), and an untranslatable
element or value type likewise aborts the containing array or map with its
own error. -/
theorem unknown_kind_raises :
    (∀ (key name : String) (rest : List (String × ZodNode)),
      zodSchemaRaw ((key, .unknownKind name) :: rest) = .error (.unsupportedFieldType name)) ∧
    (∀ (name : String) (r : Bool) (d : Option MDefault) (rf : Option EffectValidator),
      parseField (.array (.unknownKind name)) r d rf = .error .unsupportedArrayType) ∧
    (∀ (name : String) (r : Bool) (d : Option MDefault) (rf : Option EffectValidator),
      parseField (.mapOrRecord (.unknownKind name)) r d rf = .error .unsupportedMapValueType) := by
  refine ⟨?_, ?_, ?_⟩
  · intro key name rest
    simp [zodSchemaRaw, parseObject, parseField, constructorName, throw, throwThe,
      MonadExceptOf.throw, bind, Except.bind]
  · intro name r d rf
    simp [parseField, parseArray, elementChecksValidation, throw, throwThe,
      MonadExceptOf.throw, bind, Except.bind]
  · intro name r d rf
    simp [parseField, parseMap, throw, throwThe, MonadExceptOf.throw, bind, Except.bind]

/-- C7: a union translates exactly as its first option alone, under the
default context; the remaining options are never consulted, so the result is
unchanged when they are replaced wholesale. -/
theorem union_first_option_only (o1 : ZodNode) (rest rest2 : List ZodNode) (r : Bool)
    (d : Option MDefault) (rf : Option EffectValidator) :
    parseField (.union (o1 :: rest)) r d rf = parseField o1 true none none ∧
    parseField (.union (o1 :: rest)) r d rf = parseField (.union (o1 :: rest2)) r d rf := by
  constructor <;> simp [parseField]

/-- C8: registering the extension a second time is a no-op — after one
`extendZod` the guard is set, and applying `extendZod` to the already
extended library returns it unchanged, so attached methods and kind tags are
neither duplicated nor altered and no error is raised. -/
theorem extendZod_idempotent (L : ZodLib) :
    extendZod (extendZod L) = extendZod L ∧ (extendZod L).zod_extended = true := by
  constructor <;>
    · by_cases h : L.zod_extended <;> simp [extendZod, h]

/-- Prepending checks on which the per-check matching logic yields nothing
does not change the extraction scan's verdict. -/
theorem findSome?_append_of_none {α β : Type} (f : α → Option β) (l1 l2 : List α)
    (h : ∀ c ∈ l1, f c = none) :
    (l1 ++ l2).findSome? f = l2.findSome? f := by
  induction l1 with
  | nil => simp
  | cons a as ih =>
      have ha : f a = none := h a (by simp)
      simp [List.findSome?, ha, ih (fun c hc => h c (by simp [hc]))]

/-- Writing the validation metadata onto the last check of a list ending in
a custom check rewrites exactly that final check. -/
theorem setLastCheckValidation_append (v : EffectValidator) (cks : List Check) (c : Check)
    (hc : c.cdef.type = "custom") :
    setLastCheckValidation v (cks ++ [c]) =
      cks ++ [{ c with cdef := { c.cdef with zm_validation := some v } }] := by
  induction cks with
  | nil => simp [setLastCheckValidation, hc]
  | cons a as ih =>
      cases as with
      | nil => simp [setLastCheckValidation, hc]
      | cons b bs => simpa [setLastCheckValidation] using ih

/-- C9: a string node marked unique and sparse, refined through the enhanced
refine with a predicate and a message, and then wrapped in Optional,
translates to a descriptor still carrying `unique=true`, `sparse=true` and
the custom-validator record with the original predicate and message —
provided no earlier check of the node already carries a matching record
(the forward scan would return that one instead, see C3). -/
theorem refined_metadata_roundtrip (mn mx : Option Int) (cks : List Check)
    (pred : Nat) (msg : String) (r : Bool) (d : Option MDefault)
    (rf : Option EffectValidator) (h : ∀ c ∈ cks, checkValidation c = none) :
    parseField
        (.optional (enhancedRefine (.string mn mx cks (some true) (some true)) pred (.strMsg msg)))
        r d rf =
      .ok (some (.mString none false mn mx true true (some ⟨pred, some msg⟩))) := by
  have hset := setLastCheckValidation_append ⟨pred, some msg⟩ cks
    (newCustomCheck pred (.strMsg msg)) (by rfl)
  have hn : enhancedRefine (.string mn mx cks (some true) (some true)) pred (.strMsg msg) =
      .string mn mx
        (cks ++ [{ newCustomCheck pred (.strMsg msg) with
          cdef := { (newCustomCheck pred (.strMsg msg)).cdef with
            zm_validation := some ⟨pred, some msg⟩ } }])
        (some true) (some true) := by
    simp [enhancedRefine, baseRefine, zmUniqueAttr, zmSparseAttr, withZmUnique,
      withZmSparse, withChecks, refineMessage, hset]
  rw [hn]
  have hex : extractValidationFromChecks
      (cks ++ [{ newCustomCheck pred (.strMsg msg) with
        cdef := { (newCustomCheck pred (.strMsg msg)).cdef with
          zm_validation := some ⟨pred, some msg⟩ } }]) = some ⟨pred, some msg⟩ := by
    rw [extractValidation_eq_findSome, findSome?_append_of_none _ _ _ h]
    simp [List.findSome?, checkValidation]
  simp [parseField, parseString, hex]

/-- C9, witness: a bare unique, sparse string refined with predicate id 7 and
message "bad", wrapped in Optional. -/
theorem refined_metadata_roundtrip_witness :
    parseField
        (.optional (enhancedRefine (.string none none [] (some true) (some true)) 7
          (.strMsg "bad")))
        true none none =
      .ok (some (.mString none false none none true true (some ⟨7, some "bad"⟩))) :=
  refined_metadata_roundtrip none none [] 7 "bad" true none none (by simp)

/-- C10: on the effect branch (any defType reaching one of its sub-branches)
with an underlying field present, the recursive translation of the
underlying field receives the effect node's own `_def` object as its
default-value provider — the branch's local `def` binding shadows the
inherited default parameter, which is discarded on this path — and the
resulting descriptor then has the captured unique/sparse attributes written
onto it. -/
theorem effect_def_shadows_default (dt : String) (pin sch : Option ZodNode) (f : ZodNode)
    (r : Bool) (d : Option MDefault) (rf : Option EffectValidator)
    (hd : dt = "string" ∨ dt = "number" ∨ dt = "date" ∨ dt = "pipe" ∨ dt = "transform")
    (hf : pin = some f ∨ (pin = none ∧ sch = some f)) :
    parseField (.effect dt pin sch) r d rf =
      (parseField f r (some (.rawDef dt pin sch)) rf).map
        (Option.map (setUniqueSparse ((zmUniqueAttr f).getD false)
          ((zmSparseAttr f).getD false))) := by
  rcases hf with hf | ⟨hp, hs⟩
  · subst hf
    rcases hd with hd | hd | hd | hd | hd <;> subst hd <;>
      · cases hpf : parseField f r (some (.rawDef _ (some f) sch)) rf with
        | error e => simp [parseField, hpf, Except.map, bind, Except.bind]
        | ok o => simp [parseField, hpf, Except.map, bind, Except.bind, pure, Except.pure]
  · subst hp; subst hs
    rcases hd with hd | hd | hd | hd | hd <;> subst hd <;>
      · cases hpf : parseField f r (some (.rawDef _ none (some f))) rf with
        | error e => simp [parseField, hpf, Except.map, bind, Except.bind]
        | ok o => simp [parseField, hpf, Except.map, bind, Except.bind, pure, Except.pure]

/-- C10, witness: a transform-classified node with a bare string on its `in`
side, translated under an inherited `required=true` and empty default. -/
theorem effect_def_shadows_default_witness :
    parseField (.effect "string" (some strNode0) none) true none none =
      (parseField strNode0 true (some (.rawDef "string" (some strNode0) none)) none).map
        (Option.map (setUniqueSparse false false)) :=
  effect_def_shadows_default "string" (some strNode0) none strNode0 true none none
    (Or.inl rfl) (Or.inl rfl)

end ZodMongoose
